import Mathlib

/- Verification of the StrategyUI layout-strategy family and entry-widget
lifecycle manager, as a shallow embedding of the C++ sources.

Conventions:
- `int32` values are modelled as `Int` (the reasoning below never exercises
  wrap-around, so no explicit `% 2^32` is required);
- `float` values are modelled as exact rationals `Rat`;
- the C++ `%` operator on integers is `Int.tmod` (truncated remainder) and
  C++ `/` on integers is `Int.tdiv`;
- `FMath::IsNearlyZero` and `FMath::Fmod` carry Unreal's `SMALL_NUMBER = 1e-8`
  tolerance explicitly. -/

/-- The engine's `INDEX_NONE` sentinel. -/
def INDEX_NONE : Int := -1

/-- Unreal's `SMALL_NUMBER` constant (`1.e-8f`). -/
def smallNumber : Rat := 1 / 100000000

/-- Model of `FMath::IsNearlyZero` with its default `SMALL_NUMBER` tolerance. -/
def isNearlyZero (x : Rat) : Prop := |x| ≤ smallNumber

instance (x : Rat) : Decidable (isNearlyZero x) :=
inferInstanceAs (Decidable (|x| ≤ smallNumber))

/-- Truncation of a rational toward zero, as `TruncToFloat` does. -/
def truncQ (q : Rat) : Int := if 0 ≤ q then ⌊q⌋ else ⌈q⌉

/-- Model of `FMath::Fmod`: remainder with the sign of the dividend, guarded by
the `SMALL_NUMBER` check on the divisor that Unreal's implementation performs. -/
def qfmod (x y : Rat) : Rat :=
if |y| ≤ smallNumber then 0 else x - y * (truncQ (x / y) : Int)

/-- Model of `FMath::Clamp` (`(X < Min) ? Min : (X < Max) ? X : Max`). -/
def clampInt (x lo hi : Int) : Int := if x < lo then lo else if x < hi then x else hi

namespace RadialLayoutStrategy

/-- `URadialLayoutStrategy::GlobalIndexToDataIndex`
(`(GlobalIndex >= 0 && GlobalIndex < NumItems) ? GlobalIndex : INDEX_NONE`),
shared by the wheel strategy. -/
def globalIndexToDataIndex (numItems globalIndex : Int) : Int :=
if 0 ≤ globalIndex ∧ globalIndex < numItems then globalIndex else INDEX_NONE

/-- `URadialLayoutStrategy::ShouldBeVisible`
(`GlobalIndex >= VisibleStartIndex && GlobalIndex <= VisibleEndIndex`). -/
def shouldBeVisible (visibleStartIndex visibleEndIndex globalIndex : Int) : Prop :=
visibleStartIndex ≤ globalIndex ∧ globalIndex ≤ visibleEndIndex

instance (a b g : Int) : Decidable (shouldBeVisible a b g) :=
inferInstanceAs (Decidable (a ≤ g ∧ g ≤ b))

/-- `URadialLayoutStrategy::UpdateAngularSpacing`
(`AngularSpacing = (RadialSegmentCount > 0) ? (360.f / RadialSegmentCount) : 0.f`). -/
def updateAngularSpacing (radialSegmentCount : Int) : Rat :=
if 0 < radialSegmentCount then 360 / (radialSegmentCount : Rat) else 0

end RadialLayoutStrategy

namespace WheelLayoutStrategy

/-- `UWheelLayoutStrategy::SanitizeAngle`: `Fmod` into `(-360, 360)`, then wrap
negatives up by one turn. -/
def sanitizeAngle (inAngle : Rat) : Rat :=
let workingAngle := qfmod inAngle 360
if workingAngle < 0 then workingAngle + 360 else workingAngle

/-- `UWheelLayoutStrategy::UpdateGapSegments`
(`GapPaddingSegments = FMath::Max(0, RadialSegmentCount - TotalItems)`). -/
def updateGapSegments (radialSegmentCount totalItems : Int) : Int :=
max 0 (radialSegmentCount - totalItems)

/-- `UWheelLayoutStrategy::FindFocusedGlobalIndexByAngle`: wrap the pointer
angle to `[0,360)`, add half a wedge, wrap again, divide by the spacing and
floor. -/
def findFocusedGlobalIndexByAngle (angularSpacing latestPointerAngle : Rat) : Int :=
let cleanAngle0 := qfmod latestPointerAngle 360
let cleanAngle1 := if cleanAngle0 < 0 then cleanAngle0 + 360 else cleanAngle0
let cleanAngle2 := cleanAngle1 + angularSpacing * (1/2)
let cleanAngle3 := qfmod cleanAngle2 360
⌊cleanAngle3 / angularSpacing⌋

end WheelLayoutStrategy

namespace SpiralLayoutStrategy

/-- `USpiralLayoutStrategy::UpdateGapSegments`: remainder of `TotalItems` by
`RadialSegmentCount`; zero remainder needs no gap, otherwise pad up to the next
multiple, clamped into `[0, RadialSegmentCount]`. -/
def updateGapSegments (radialSegmentCount totalItems : Int) : Int :=
let remainder := totalItems.tmod radialSegmentCount
if remainder = 0 then 0
else
  let needed := radialSegmentCount - remainder
  clampInt needed 0 radialSegmentCount

/-- `USpiralLayoutStrategy::GlobalIndexToDataIndex`: early-out on an empty item
list, otherwise wrap the global index into `[0, VirtualCycle)` with the
always-non-negative double-`%` and return it when it lands on a real item. -/
def globalIndexToDataIndex (numItems gapPaddingSegments globalIndex : Int) : Int :=
if numItems ≤ 0 then INDEX_NONE
else
  let virtualCycle := numItems + gapPaddingSegments
  let wrappedIndex := ((globalIndex.tmod virtualCycle) + virtualCycle).tmod virtualCycle
  if wrappedIndex < numItems then wrappedIndex else INDEX_NONE

/-- `USpiralLayoutStrategy::FindFocusedGlobalIndexByAngle`: guard on a nearly
zero spacing, otherwise offset by half a wedge and floor-divide. -/
def findFocusedGlobalIndexByAngle (angularSpacing latestPointerAngle : Rat) : Int :=
if isNearlyZero angularSpacing then 0
else ⌊(latestPointerAngle + angularSpacing * (1/2)) / angularSpacing⌋

/-- `USpiralLayoutStrategy::ComputeShortestUnboundAngleForDataIndex`: pick
whichever of the floor/ceil cycle-aligned candidates is closer to the pointer,
with the degenerate early-outs of the source. -/
def computeShortestUnboundAngleForDataIndex
    (numItems gapPaddingSegments : Int) (angularSpacing latestPointerAngle : Rat)
    (dataIndex : Int) : Rat :=
if numItems ≤ 0 then latestPointerAngle
else
  let itemBaseAngle : Rat := (dataIndex : Rat) * angularSpacing
  let cycleStep : Rat := ((numItems + gapPaddingSegments : Int) : Rat) * angularSpacing
  if isNearlyZero cycleStep then itemBaseAngle
  else
    let offset := latestPointerAngle - itemBaseAngle
    let nFloat := offset / cycleStep
    let nFloor : Int := ⌊nFloat⌋
    let nCeil : Int := ⌈nFloat⌉
    let floorAngle := itemBaseAngle + (nFloor : Rat) * cycleStep
    let ceilAngle := itemBaseAngle + (nCeil : Rat) * cycleStep
    let distFloor := |floorAngle - latestPointerAngle|
    let distCeil := |ceilAngle - latestPointerAngle|
    if distFloor ≤ distCeil then floorAngle else ceilAngle

/-- Result record of `USpiralLayoutStrategy::ComputeDesiredGlobalIndices`: the
updated `VisibleStartIndex`/`VisibleEndIndex` members and the returned set. -/
structure DesiredWindow where
  visibleStartIndex : Int
  visibleEndIndex : Int
  indices : Finset Int
deriving DecidableEq

/-- `USpiralLayoutStrategy::ComputeDesiredGlobalIndices`: half-window on each
side of the focused index, extended by `NumDeactivatedEntries`; the `for` loop
adding every index from `ExtendedStart` to `ExtendedEnd` inclusive is the
integer interval. -/
def computeDesiredGlobalIndices
    (maxVisibleEntries numDeactivatedEntries : Int)
    (angularSpacing latestPointerAngle : Rat) : DesiredWindow :=
let halfWindow := maxVisibleEntries.tdiv 2
let visibleStartIndex :=
  findFocusedGlobalIndexByAngle angularSpacing latestPointerAngle - halfWindow
let visibleEndIndex := visibleStartIndex + maxVisibleEntries - 1
let extendedStart := visibleStartIndex - numDeactivatedEntries
let extendedEnd := visibleEndIndex + numDeactivatedEntries
⟨visibleStartIndex, visibleEndIndex, Finset.Icc extendedStart extendedEnd⟩

end SpiralLayoutStrategy

namespace BaseStrategyWidget

/-- Abstract per-frame reconciliation state of `UBaseStrategyWidget`:
the key set of `IndexToWidgetMap` together with cumulative pool traffic
(`EntryWidgetPool.GetOrCreateInstance` pulls and `EntryWidgetPool.Release`
returns).  Widget identity, canvas slots and tag containers do not affect
which indices are acquired or released, so they are not tracked here. -/
structure WidgetState where
  allocated : Finset Int
  poolAcquisitions : Nat
  poolReleases : Nat
deriving DecidableEq

/-- `UBaseStrategyWidget::AcquireEntryWidget`: reuse the widget already mapped
to the index, otherwise pull a fresh instance from the pool and map it. -/
def acquireEntryWidget (s : WidgetState) (globalIndex : Int) : WidgetState :=
if globalIndex ∈ s.allocated then s
else
  { s with
    allocated := insert globalIndex s.allocated
    poolAcquisitions := s.poolAcquisitions + 1 }

/-- `UBaseStrategyWidget::ReleaseEntryWidget`: if the index is mapped, return
its widget to the pool and drop the index from the maps. -/
def releaseEntryWidget (s : WidgetState) (globalIndex : Int) : WidgetState :=
if globalIndex ∈ s.allocated then
  { s with
    allocated := s.allocated.erase globalIndex
    poolReleases := s.poolReleases + 1 }
else s

/-- `UBaseStrategyWidget::ReleaseUndesiredWidgets`: walk a snapshot of the
currently mapped indices (`GenerateKeyArray`; `TMap` iteration order is
unspecified, taken here in sorted order) and release every one not in the
desired set. -/
def releaseUndesiredWidgets (s : WidgetState) (desiredIndices : Finset Int) : WidgetState :=
(s.allocated.sort (· ≤ ·)).foldl
  (fun acc oldIndex =>
    if oldIndex ∈ desiredIndices then acc else releaseEntryWidget acc oldIndex) s

/-- The per-desired-index body of `UBaseStrategyWidget::UpdateVisibleWidgets`:
`TryHandlePooledEntryStateTransition` (whose `UpdateEntryLifecycleTagState`
acquires the widget to notify it), `PositionWidget` (acquires) and
`UpdateEntryWidget` (acquires). -/
def updateDesiredEntry (s : WidgetState) (globalIndex : Int) : WidgetState :=
let s1 := acquireEntryWidget s globalIndex
let s2 := acquireEntryWidget s1 globalIndex
acquireEntryWidget s2 globalIndex

/-- `UBaseStrategyWidget::UpdateVisibleWidgets`: with no items the widget is
`Reset` (pool and maps cleared wholesale, no per-widget release calls);
otherwise release the undesired indices, then acquire/transition/position/
update each desired index.  `desired` is the strategy's
`ComputeDesiredGlobalIndices()` output, identical across runs when pointer
angle, items and strategy state are unchanged. -/
def updateVisibleWidgets (itemCount : Int) (desired : List Int) (s : WidgetState) :
    WidgetState :=
if itemCount = 0 then { s with allocated := ∅ }
else
  let afterRelease := releaseUndesiredWidgets s desired.toFinset
  desired.foldl updateDesiredEntry afterRelease

/-- Entry lifecycle and interaction tags under `StrategyUI.EntryLifecycle` and
`StrategyUI.EntryInteraction`. -/
inductive EntryTag where
  | pooled
  | active
  | deactivated
  | focused
  | selected
deriving DecidableEq

/-- Whether a tag `MatchesTag(StrategyUI.EntryInteraction.Parent)`. -/
def matchesEntryInteractionParent : EntryTag → Bool
  | .focused => true
  | .selected => true
  | _ => false

/-- `FGameplayTagContainer::AddTag` (a set: adding a present tag is a no-op). -/
def addTag (tags : List EntryTag) (t : EntryTag) : List EntryTag :=
if t ∈ tags then tags else t :: tags

/-- Selection-relevant state of `UBaseStrategyWidget`: the selected data-index
set, the mapped global indices holding a valid widget (iteration order of
`IndexToWidgetMap`), the `IndexToTagStateMap` contents (`FindOrAdd` defaults to
an empty container) and the `OnItemSelected` broadcasts issued so far.  Widget
`BP_*` callbacks mutate no widget-side state modelled here. -/
structure SelectionState where
  selectedDataIndices : Finset Int
  widgetKeys : List Int
  entryTagStates : Int → List EntryTag
  selectionBroadcasts : List Int

/-- `UBaseStrategyWidget::UpdateEntryInteractionTagState`: reject tags outside
`StrategyUI.EntryInteraction`, otherwise add or remove the tag on the index's
container and notify the widget. -/
def updateEntryInteractionTagState (st : SelectionState) (globalIndex : Int)
    (t : EntryTag) (bEnable : Bool) : SelectionState :=
if matchesEntryInteractionParent t then
  { st with
    entryTagStates := fun k =>
      if k = globalIndex then
        if bEnable then addTag (st.entryTagStates globalIndex) t
        else (st.entryTagStates globalIndex).erase t
      else st.entryTagStates k }
else st

/-- `UBaseStrategyWidget::SetSelectedGlobalIndex`: resolve the global index to
a data index through the layout strategy (`g2d`); bail out on a gap slot;
otherwise retag every mapped widget showing that data index, then maintain
`SelectedDataIndices` and broadcast `OnItemSelected` on a fresh selection. -/
def setSelectedGlobalIndex (g2d : Int → Int) (st : SelectionState)
    (inGlobalIndex : Int) (bShouldBeSelected : Bool) : SelectionState :=
let dataIndex := g2d inGlobalIndex
if dataIndex = INDEX_NONE then st
else
  let st1 := st.widgetKeys.foldl
    (fun acc mappedGlobalIndex =>
      if g2d mappedGlobalIndex = dataIndex then
        updateEntryInteractionTagState acc mappedGlobalIndex .selected bShouldBeSelected
      else acc) st
  if bShouldBeSelected = true ∧ dataIndex ∉ st.selectedDataIndices then
    let st2 := { st1 with selectedDataIndices := insert dataIndex st1.selectedDataIndices }
    let st3 := updateEntryInteractionTagState st2 inGlobalIndex .selected true
    { st3 with selectionBroadcasts := st3.selectionBroadcasts ++ [dataIndex] }
  else if bShouldBeSelected = false ∧ dataIndex ∈ st.selectedDataIndices then
    let st2 := { st1 with selectedDataIndices := st1.selectedDataIndices.erase dataIndex }
    updateEntryInteractionTagState st2 inGlobalIndex .selected false
  else st1

end BaseStrategyWidget

section IntHelpers

/-- The double-`%` pattern of the spiral source computes the non-negative
residue: for a positive cycle, `((g % vc) + vc) % vc` (C++ truncated `%`)
equals the Euclidean remainder. -/
lemma tmod_shift_emod (g vc : Int) (h : 0 < vc) :
    ((g.tmod vc) + vc).tmod vc = g % vc := by
have hub : g.tmod vc < vc := Int.tmod_lt_of_pos g h
have hlb : -vc < g.tmod vc := by
  rcases le_or_lt 0 g with hg | hg
  · have h0 : 0 ≤ g.tmod vc := Int.tmod_nonneg vc hg
    linarith
  · have hneg : g.tmod vc = -((-g).tmod vc) := by
      rw [Int.tmod_def, Int.tmod_def, Int.neg_tdiv]
      ring
    have h2 : (-g).tmod vc < vc := Int.tmod_lt_of_pos (-g) h
    rw [hneg]; linarith
have hnn : 0 ≤ g.tmod vc + vc := by linarith
rw [Int.tmod_eq_emod hnn (le_of_lt h)]
have hrw : g.tmod vc + vc = (g + vc * (-(g.tdiv vc))) + vc * 1 := by
  rw [Int.tmod_def]; ring
rw [hrw, Int.add_mul_emod_self_left, Int.add_mul_emod_self_left]

/-- The spiral gap is zero exactly on the aligned case. -/
lemma spiral_gap_mod_zero (radialSegmentCount numItems : Int)
    (hn : 0 ≤ numItems) (hs : 1 ≤ radialSegmentCount)
    (h : numItems % radialSegmentCount = 0) :
    SpiralLayoutStrategy.updateGapSegments radialSegmentCount numItems = 0 := by
unfold SpiralLayoutStrategy.updateGapSegments
rw [Int.tmod_eq_emod hn (by omega)]
simp [h]

/-- On the misaligned case the clamp never fires and the gap is the distance
to the next multiple. -/
lemma spiral_gap_mod_ne (radialSegmentCount numItems : Int)
    (hn : 0 ≤ numItems) (hs : 1 ≤ radialSegmentCount)
    (h : numItems % radialSegmentCount ≠ 0) :
    SpiralLayoutStrategy.updateGapSegments radialSegmentCount numItems
      = radialSegmentCount - numItems % radialSegmentCount := by
have hr0 : 0 ≤ numItems % radialSegmentCount := Int.emod_nonneg numItems (by omega)
have hrs : numItems % radialSegmentCount < radialSegmentCount :=
  Int.emod_lt_of_pos numItems (by omega)
unfold SpiralLayoutStrategy.updateGapSegments clampInt
rw [Int.tmod_eq_emod hn (by omega)]
rw [if_neg h, if_neg (by omega), if_pos (by omega)]

/-- The spiral gap is never negative. -/
lemma spiral_gap_nonneg (radialSegmentCount numItems : Int)
    (hn : 0 ≤ numItems) (hs : 1 ≤ radialSegmentCount) :
    0 ≤ SpiralLayoutStrategy.updateGapSegments radialSegmentCount numItems := by
by_cases h : numItems % radialSegmentCount = 0
· rw [spiral_gap_mod_zero radialSegmentCount numItems hn hs h]
· rw [spiral_gap_mod_ne radialSegmentCount numItems hn hs h]
  have : numItems % radialSegmentCount < radialSegmentCount :=
    Int.emod_lt_of_pos numItems (by omega)
  omega

end IntHelpers

/-- C1: for every item count `n ≥ 0`, segment count `s ≥ 1` and integer global
index `g`, with the gap produced by `UpdateGapSegments`, the spiral's
`GlobalIndexToDataIndex` is periodic with period `VirtualCycle = n + gap`; for
a positive cycle it returns the always-non-negative residue `g mod VirtualCycle`
when that residue is below `NumItems` (also for negative `g`) and `INDEX_NONE`
otherwise; in the empty case (`VirtualCycle = 0`, only possible when `n = 0`)
it returns `INDEX_NONE`. -/
theorem spiral_globalIndexToDataIndex_periodic
    (numItems radialSegmentCount gap globalIndex : Int)
    (hn : 0 ≤ numItems) (hs : 1 ≤ radialSegmentCount)
    (hgap : gap = SpiralLayoutStrategy.updateGapSegments radialSegmentCount numItems) :
    SpiralLayoutStrategy.globalIndexToDataIndex numItems gap (globalIndex + (numItems + gap))
        = SpiralLayoutStrategy.globalIndexToDataIndex numItems gap globalIndex
    ∧ (0 < numItems + gap →
        0 ≤ globalIndex % (numItems + gap)
        ∧ SpiralLayoutStrategy.globalIndexToDataIndex numItems gap globalIndex
            = if globalIndex % (numItems + gap) < numItems
              then globalIndex % (numItems + gap) else INDEX_NONE)
    ∧ (numItems + gap = 0 →
        SpiralLayoutStrategy.globalIndexToDataIndex numItems gap globalIndex = INDEX_NONE) := by
have hgap0 : 0 ≤ gap := hgap ▸ spiral_gap_nonneg radialSegmentCount numItems hn hs
rcases lt_or_le 0 numItems with hpos | hle
· have hvc : 0 < numItems + gap := by omega
  have hne : ¬ numItems ≤ 0 := by omega
  have hshift := tmod_shift_emod globalIndex (numItems + gap) hvc
  have hshift2 := tmod_shift_emod (globalIndex + (numItems + gap)) (numItems + gap) hvc
  have hper : (globalIndex + (numItems + gap)) % (numItems + gap)
      = globalIndex % (numItems + gap) := Int.add_mul_emod_self_left globalIndex _ 1 ▸ by
    have h1 : globalIndex + (numItems + gap) = globalIndex + (numItems + gap) * 1 := by ring
    rw [h1, Int.add_mul_emod_self_left]
  constructor
  · simp only [SpiralLayoutStrategy.globalIndexToDataIndex, if_neg hne]
    rw [hshift, hshift2, hper]
  constructor
  · intro _
    refine ⟨Int.emod_nonneg globalIndex (by omega), ?_⟩
    simp only [SpiralLayoutStrategy.globalIndexToDataIndex, if_neg hne]
    rw [hshift]
  · intro h0
    omega
· have heq : numItems = 0 := le_antisymm hle hn
  have hgap' : gap = 0 := by
    rw [hgap, heq]
    exact spiral_gap_mod_zero radialSegmentCount 0 le_rfl hs (by simp)
  subst heq
  have hne : (0:Int) ≤ 0 := le_rfl
  constructor
  · simp [SpiralLayoutStrategy.globalIndexToDataIndex]
  constructor
  · intro hlt
    omega
  · intro _
    simp [SpiralLayoutStrategy.globalIndexToDataIndex]

/-- Witness for C1 at `n = 10`, `s = 8` (gap `6`), `g = -3`: the residue is
`13`, a gap slot, so the lookup yields `INDEX_NONE` and repeats with period
`16`. -/
theorem spiral_globalIndexToDataIndex_periodic_witness :
    (0:Int) ≤ 10 ∧ (1:Int) ≤ 8
    ∧ (6:Int) = SpiralLayoutStrategy.updateGapSegments 8 10
    ∧ (SpiralLayoutStrategy.globalIndexToDataIndex 10 6 (-3 + (10 + 6))
          = SpiralLayoutStrategy.globalIndexToDataIndex 10 6 (-3)
       ∧ (0 < (10:Int) + 6 →
            0 ≤ (-3) % ((10:Int) + 6)
            ∧ SpiralLayoutStrategy.globalIndexToDataIndex 10 6 (-3)
                = if (-3) % ((10:Int) + 6) < 10 then (-3) % ((10:Int) + 6) else INDEX_NONE)
       ∧ ((10:Int) + 6 = 0 →
            SpiralLayoutStrategy.globalIndexToDataIndex 10 6 (-3) = INDEX_NONE)) :=
⟨by decide, by decide, by decide,
 spiral_globalIndexToDataIndex_periodic 10 8 6 (-3) (by decide) (by decide) (by decide)⟩

/-- C2: after `UpdateGapSegments(n)` on the spiral with `s ≥ 1`, the gap is `0`
when `n mod s = 0`, and otherwise (for `n > 0`) equals `s - (n mod s)`, which
realigns `(n + gap) mod s = 0` with `0 < gap < s`; concretely `n = 10`, `s = 8`
gives gap `6`, cycle `16`, and lookups `0 ↦ 0`, `10 ↦ INDEX_NONE`, `16 ↦ 0`. -/
theorem spiral_updateGapSegments_invariant
    (numItems radialSegmentCount : Int) (hn : 0 ≤ numItems) (hs : 1 ≤ radialSegmentCount) :
    (numItems % radialSegmentCount = 0 →
        SpiralLayoutStrategy.updateGapSegments radialSegmentCount numItems = 0)
    ∧ (0 < numItems → numItems % radialSegmentCount ≠ 0 →
        SpiralLayoutStrategy.updateGapSegments radialSegmentCount numItems
            = radialSegmentCount - numItems % radialSegmentCount
        ∧ (numItems + SpiralLayoutStrategy.updateGapSegments radialSegmentCount numItems)
              % radialSegmentCount = 0
        ∧ 0 < SpiralLayoutStrategy.updateGapSegments radialSegmentCount numItems
        ∧ SpiralLayoutStrategy.updateGapSegments radialSegmentCount numItems
            < radialSegmentCount)
    ∧ SpiralLayoutStrategy.updateGapSegments 8 10 = 6
    ∧ (10:Int) + SpiralLayoutStrategy.updateGapSegments 8 10 = 16
    ∧ SpiralLayoutStrategy.globalIndexToDataIndex 10 6 0 = 0
    ∧ SpiralLayoutStrategy.globalIndexToDataIndex 10 6 10 = INDEX_NONE
    ∧ SpiralLayoutStrategy.globalIndexToDataIndex 10 6 16 = 0 := by
refine ⟨spiral_gap_mod_zero radialSegmentCount numItems hn hs, ?_,
  by decide, by decide, by decide, by decide, by decide⟩
intro hpos hne
have heq := spiral_gap_mod_ne radialSegmentCount numItems hn hs hne
have hr0 : 0 ≤ numItems % radialSegmentCount := Int.emod_nonneg numItems (by omega)
have hrs : numItems % radialSegmentCount < radialSegmentCount :=
  Int.emod_lt_of_pos numItems (by omega)
refine ⟨heq, ?_, by omega, by omega⟩
rw [heq]
have hsplit : numItems + (radialSegmentCount - numItems % radialSegmentCount)
    = radialSegmentCount * (numItems / radialSegmentCount + 1) := by
  have hdm := Int.emod_add_ediv numItems radialSegmentCount
  ring_nf
  omega
rw [hsplit, Int.mul_emod_right]

/-- Witness for C2 at `n = 10`, `s = 8`. -/
theorem spiral_updateGapSegments_invariant_witness :
    ((10:Int) % 8 = 0 → SpiralLayoutStrategy.updateGapSegments 8 10 = 0)
    ∧ (0 < (10:Int) → (10:Int) % 8 ≠ 0 →
        SpiralLayoutStrategy.updateGapSegments 8 10 = 8 - (10:Int) % 8
        ∧ ((10:Int) + SpiralLayoutStrategy.updateGapSegments 8 10) % 8 = 0
        ∧ 0 < SpiralLayoutStrategy.updateGapSegments 8 10
        ∧ SpiralLayoutStrategy.updateGapSegments 8 10 < 8)
    ∧ SpiralLayoutStrategy.updateGapSegments 8 10 = 6
    ∧ (10:Int) + SpiralLayoutStrategy.updateGapSegments 8 10 = 16
    ∧ SpiralLayoutStrategy.globalIndexToDataIndex 10 6 0 = 0
    ∧ SpiralLayoutStrategy.globalIndexToDataIndex 10 6 10 = INDEX_NONE
    ∧ SpiralLayoutStrategy.globalIndexToDataIndex 10 6 16 = 0 :=
spiral_updateGapSegments_invariant 10 8 (by decide) (by decide)

/-- C6: for the wheel strategy (which inherits the radial index mapping) with
`n ≥ 0`, `s ≥ 1` and `g ∈ [0, s)`, `GlobalIndexToDataIndex(g)` returns `g`
exactly when `0 ≤ g < n` and the `INDEX_NONE` sentinel otherwise; being a total
function of the embedding, it throws nothing and returns no other value. -/
theorem wheel_globalIndexToDataIndex_range
    (numItems radialSegmentCount globalIndex : Int)
    (hn : 0 ≤ numItems) (hs : 1 ≤ radialSegmentCount)
    (hg0 : 0 ≤ globalIndex) (hgs : globalIndex < radialSegmentCount) :
    (RadialLayoutStrategy.globalIndexToDataIndex numItems globalIndex = globalIndex
        ↔ (0 ≤ globalIndex ∧ globalIndex < numItems))
    ∧ (¬ (0 ≤ globalIndex ∧ globalIndex < numItems) →
        RadialLayoutStrategy.globalIndexToDataIndex numItems globalIndex = INDEX_NONE) := by
unfold RadialLayoutStrategy.globalIndexToDataIndex INDEX_NONE
constructor
· by_cases h : 0 ≤ globalIndex ∧ globalIndex < numItems
  · simp [h]
  · simp only [if_neg h]
    constructor
    · intro habs
      omega
    · intro habs
      exact absurd habs h
· intro h
  simp [h]

/-- Witness for C6 at `n = 3`, `s = 8`, `g = 5` (a trailing gap wedge). -/
theorem wheel_globalIndexToDataIndex_range_witness :
    (RadialLayoutStrategy.globalIndexToDataIndex 3 5 = 5 ↔ (0 ≤ (5:Int) ∧ (5:Int) < 3))
    ∧ (¬ (0 ≤ (5:Int) ∧ (5:Int) < 3) →
        RadialLayoutStrategy.globalIndexToDataIndex 3 5 = INDEX_NONE) :=
wheel_globalIndexToDataIndex_range 3 8 5 (by decide) (by decide) (by decide) (by decide)

section RatHelpers

/-- With a non-negative dividend and a divisor above the guard tolerance,
`Fmod` lands in `[0, y)`. -/
lemma qfmod_nonneg_bounds (x y : Rat) (hx : 0 ≤ x) (hy : smallNumber < y) :
    0 ≤ qfmod x y ∧ qfmod x y < y := by
have hy0 : 0 < y := lt_trans (by norm_num [smallNumber]) hy
have habs : ¬ |y| ≤ smallNumber := not_le.mpr (by rwa [abs_of_pos hy0])
have hq : 0 ≤ x / y := div_nonneg hx hy0.le
rw [qfmod, if_neg habs, truncQ, if_pos hq]
have hfl : (⌊x / y⌋ : Rat) ≤ x / y := Int.floor_le _
have hfl2 : x / y < ⌊x / y⌋ + 1 := Int.lt_floor_add_one _
have hxy : y * (x / y) = x := by field_simp
have hle : y * (⌊x / y⌋ : Rat) ≤ y * (x / y) := by
  exact mul_le_mul_of_nonneg_left hfl hy0.le
have hlt : y * (x / y) < y * ((⌊x / y⌋ : Rat) + 1) := by
  exact mul_lt_mul_of_pos_left hfl2 hy0
constructor
· nlinarith
· nlinarith

/-- With a negative dividend and a divisor above the guard tolerance, `Fmod`
lands in `(-y, 0]`. -/
lemma qfmod_neg_bounds (x y : Rat) (hx : x < 0) (hy : smallNumber < y) :
    -y < qfmod x y ∧ qfmod x y ≤ 0 := by
have hy0 : 0 < y := lt_trans (by norm_num [smallNumber]) hy
have habs : ¬ |y| ≤ smallNumber := not_le.mpr (by rwa [abs_of_pos hy0])
have hq : ¬ 0 ≤ x / y := not_le.mpr (div_neg_of_neg_of_pos hx hy0)
rw [qfmod, if_neg habs, truncQ, if_neg hq]
have hcl : x / y ≤ (⌈x / y⌉ : Rat) := Int.le_ceil _
have hcl2 : (⌈x / y⌉ : Rat) < x / y + 1 := Int.ceil_lt_add_one _
have hxy : y * (x / y) = x := by field_simp
have hle : y * (x / y) ≤ y * (⌈x / y⌉ : Rat) := by
  exact mul_le_mul_of_nonneg_left hcl hy0.le
have hlt : y * (⌈x / y⌉ : Rat) < y * (x / y + 1) := by
  exact mul_lt_mul_of_pos_left hcl2 hy0
constructor
· nlinarith
· nlinarith

/-- `SanitizeAngle` always lands in `[0, 360)`. -/
lemma sanitizeAngle_mem (a : Rat) :
    0 ≤ WheelLayoutStrategy.sanitizeAngle a ∧ WheelLayoutStrategy.sanitizeAngle a < 360 := by
have h360 : smallNumber < (360:Rat) := by norm_num [smallNumber]
simp only [WheelLayoutStrategy.sanitizeAngle]
by_cases hw : qfmod a 360 < 0
· rw [if_pos hw]
  rcases le_or_lt 0 a with hx | hx
  · have := (qfmod_nonneg_bounds a 360 hx h360).1
    constructor <;> linarith
  · have hb := qfmod_neg_bounds a 360 hx h360
    constructor <;> linarith [hb.1, hb.2]
· rw [if_neg hw]
  push_neg at hw
  refine ⟨hw, ?_⟩
  rcases le_or_lt 0 a with hx | hx
  · exact (qfmod_nonneg_bounds a 360 hx h360).2
  · have hb := qfmod_neg_bounds a 360 hx h360
    linarith [hb.2]

/-- `SanitizeAngle` fixes every angle already in `[0, 360)`. -/
lemma sanitizeAngle_of_mem (a : Rat) (h0 : 0 ≤ a) (h1 : a < 360) :
    WheelLayoutStrategy.sanitizeAngle a = a := by
have habs : ¬ |(360:Rat)| ≤ smallNumber := by norm_num [smallNumber]
have hq : 0 ≤ a / 360 := div_nonneg h0 (by norm_num)
have hq1 : a / 360 < 1 := (div_lt_one (by norm_num)).mpr h1
have hfl : ⌊a / 360⌋ = 0 := by
  rw [Int.floor_eq_zero_iff]
  exact ⟨hq, hq1⟩
simp only [WheelLayoutStrategy.sanitizeAngle, qfmod, truncQ, if_neg habs, if_pos hq, hfl]
norm_num [not_lt.mpr h0]

end RatHelpers

/-- C8: the wheel's `SanitizeAngle` is idempotent and its result always lies in
the half-open interval `[0, 360)`, for every angle. -/
theorem wheel_sanitizeAngle_idempotent (a : Rat) :
    WheelLayoutStrategy.sanitizeAngle (WheelLayoutStrategy.sanitizeAngle a)
        = WheelLayoutStrategy.sanitizeAngle a
    ∧ 0 ≤ WheelLayoutStrategy.sanitizeAngle a
    ∧ WheelLayoutStrategy.sanitizeAngle a < 360 := by
obtain ⟨h0, h1⟩ := sanitizeAngle_mem a
exact ⟨sanitizeAngle_of_mem _ h0 h1, h0, h1⟩

section WheelFocusHelpers

lemma not_abs360_le_small : ¬ |(360:Rat)| ≤ smallNumber := by
norm_num [smallNumber]

lemma qfmod_370_360 : qfmod 370 360 = 10 := by
have hq : (0:Rat) ≤ 370 / 360 := by norm_num
have hfl : (⌊(370:Rat) / 360⌋ : Int) = 1 := by norm_num [Int.floor_eq_iff]
rw [qfmod, if_neg not_abs360_le_small, truncQ, if_pos hq, hfl]
norm_num

lemma sanitizeAngle_370 : WheelLayoutStrategy.sanitizeAngle 370 = 10 := by
simp only [WheelLayoutStrategy.sanitizeAngle, qfmod_370_360]
norm_num

end WheelFocusHelpers

/-- C7: the wheel's `FindFocusedGlobalIndexByAngle` normalizes the pointer
angle into `[0,360)`, adds half the spacing, wraps again, divides by the
spacing and floors; with the spacing produced by `UpdateAngularSpacing` for
`s ≥ 1` segments the result lies in `[0, s)` for every pointer angle, and
pointer `370°` with spacing `45°` sanitizes to `10°` and focuses index `0`. -/
theorem wheel_findFocusedGlobalIndexByAngle_range
    (radialSegmentCount : Int) (angularSpacing latestPointerAngle : Rat)
    (hs : 1 ≤ radialSegmentCount)
    (hsp : angularSpacing = RadialLayoutStrategy.updateAngularSpacing radialSegmentCount) :
    (0 ≤ WheelLayoutStrategy.findFocusedGlobalIndexByAngle angularSpacing latestPointerAngle
     ∧ WheelLayoutStrategy.findFocusedGlobalIndexByAngle angularSpacing latestPointerAngle
         < radialSegmentCount)
    ∧ WheelLayoutStrategy.sanitizeAngle 370 = 10
    ∧ WheelLayoutStrategy.findFocusedGlobalIndexByAngle 45 370 = 0 := by
have hs0 : (0:Rat) < (radialSegmentCount : Rat) := by
  exact_mod_cast (by omega : (0:Int) < radialSegmentCount)
have hsp' : angularSpacing = 360 / (radialSegmentCount : Rat) := by
  rw [hsp, RadialLayoutStrategy.updateAngularSpacing, if_pos (by omega)]
have hpos : 0 < angularSpacing := by
  rw [hsp']
  positivity
have h360 : smallNumber < (360:Rat) := by norm_num [smallNumber]
refine ⟨?_, sanitizeAngle_370, ?_⟩
· have hc1 := sanitizeAngle_mem latestPointerAngle
  simp only [WheelLayoutStrategy.findFocusedGlobalIndexByAngle]
  have hc1eq : (if qfmod latestPointerAngle 360 < 0 then qfmod latestPointerAngle 360 + 360
      else qfmod latestPointerAngle 360) = WheelLayoutStrategy.sanitizeAngle latestPointerAngle :=
    rfl
  rw [hc1eq]
  have h0c2 : 0 ≤ WheelLayoutStrategy.sanitizeAngle latestPointerAngle + angularSpacing * (1/2) := by
    have := hc1.1
    nlinarith
  have hb3 := qfmod_nonneg_bounds _ 360 h0c2 h360
  constructor
  · exact Int.floor_nonneg.mpr (div_nonneg hb3.1 hpos.le)
  · rw [Int.floor_lt]
    have hmul : (radialSegmentCount : Rat) * angularSpacing = 360 := by
      rw [hsp']
      field_simp
    rw [div_lt_iff hpos]
    calc qfmod (WheelLayoutStrategy.sanitizeAngle latestPointerAngle + angularSpacing * (1/2)) 360
        < 360 := hb3.2
      _ = (radialSegmentCount : Rat) * angularSpacing := hmul.symm
· simp only [WheelLayoutStrategy.findFocusedGlobalIndexByAngle, qfmod_370_360]
  norm_num
  have hq : (0:Rat) ≤ 65 / 2 / 360 := by norm_num
  have hfl : (⌊(65:Rat) / 2 / 360⌋ : Int) = 0 := by
    norm_num [Int.floor_eq_iff]
  rw [qfmod, if_neg not_abs360_le_small, truncQ, if_pos hq, hfl]
  norm_num [Int.floor_eq_iff]

/-- Witness for C7 at `s = 8` segments (spacing `45°`), pointer `370°`. -/
theorem wheel_findFocusedGlobalIndexByAngle_range_witness :
    (0 ≤ WheelLayoutStrategy.findFocusedGlobalIndexByAngle 45 370
     ∧ WheelLayoutStrategy.findFocusedGlobalIndexByAngle 45 370 < 8)
    ∧ WheelLayoutStrategy.sanitizeAngle 370 = 10
    ∧ WheelLayoutStrategy.findFocusedGlobalIndexByAngle 45 370 = 0 :=
wheel_findFocusedGlobalIndexByAngle_range 8 45 370 (by decide)
  (by norm_num [RadialLayoutStrategy.updateAngularSpacing])

/-- C9: the spiral's operations are total in degenerate configurations and
never divide or take a modulus by zero: `GlobalIndexToDataIndex` yields
`INDEX_NONE` for `NumItems ≤ 0` (the modulo is never reached),
`FindFocusedGlobalIndexByAngle` yields `0` for a nearly-zero spacing, and
`ComputeShortestUnboundAngleForDataIndex` yields the pointer angle unchanged
for `NumItems ≤ 0` and the item's base angle for a nearly-zero cycle step. -/
theorem spiral_degenerate_totality
    (numItems gapPaddingSegments globalIndex dataIndex : Int)
    (angularSpacing latestPointerAngle : Rat) :
    (numItems ≤ 0 →
        SpiralLayoutStrategy.globalIndexToDataIndex numItems gapPaddingSegments globalIndex
          = INDEX_NONE)
    ∧ (isNearlyZero angularSpacing →
        SpiralLayoutStrategy.findFocusedGlobalIndexByAngle angularSpacing latestPointerAngle = 0)
    ∧ (numItems ≤ 0 →
        SpiralLayoutStrategy.computeShortestUnboundAngleForDataIndex numItems gapPaddingSegments
            angularSpacing latestPointerAngle dataIndex = latestPointerAngle)
    ∧ (0 < numItems →
        isNearlyZero (((numItems + gapPaddingSegments : Int) : Rat) * angularSpacing) →
        SpiralLayoutStrategy.computeShortestUnboundAngleForDataIndex numItems gapPaddingSegments
            angularSpacing latestPointerAngle dataIndex = (dataIndex : Rat) * angularSpacing) := by
refine ⟨?_, ?_, ?_, ?_⟩
· intro h
  simp [SpiralLayoutStrategy.globalIndexToDataIndex, h]
· intro h
  simp [SpiralLayoutStrategy.findFocusedGlobalIndexByAngle, h]
· intro h
  simp [SpiralLayoutStrategy.computeShortestUnboundAngleForDataIndex, h]
· intro h1 h2
  simp only [SpiralLayoutStrategy.computeShortestUnboundAngleForDataIndex,
    if_neg (not_le.mpr h1), if_pos h2]

/-- Witness for C9 at the degenerate corners: `n = 0` lookups and scrolls,
zero spacing for focus, and zero cycle step (`spacing = 0`, `n = 2`). -/
theorem spiral_degenerate_totality_witness :
    SpiralLayoutStrategy.globalIndexToDataIndex 0 0 7 = INDEX_NONE
    ∧ SpiralLayoutStrategy.findFocusedGlobalIndexByAngle 0 123 = 0
    ∧ SpiralLayoutStrategy.computeShortestUnboundAngleForDataIndex 0 0 45 77 3 = 77
    ∧ SpiralLayoutStrategy.computeShortestUnboundAngleForDataIndex 2 0 0 77 1
        = ((1:Int) : Rat) * 0 :=
⟨(spiral_degenerate_totality 0 0 7 0 0 0).1 (by decide),
 (spiral_degenerate_totality 0 0 0 0 0 123).2.1 (by norm_num [isNearlyZero, smallNumber]),
 (spiral_degenerate_totality 0 0 0 3 45 77).2.2.1 (by decide),
 (spiral_degenerate_totality 2 0 0 1 0 77).2.2.2 (by decide)
   (by norm_num [isNearlyZero, smallNumber])⟩

/-- C5: with `M ≥ 1` and `D ≥ 0`, the spiral's `ComputeDesiredGlobalIndices`
returns exactly the inclusive range `[F - M/2 - D, F - M/2 + M - 1 + D]`
around the focused index `F` (`M/2` in C++ integer division), a set of exactly
`M + 2D` consecutive indices whose inner window of width `M` starts at
`F - M/2`; afterwards `ShouldBeVisible(g)` holds iff
`F - M/2 ≤ g ≤ F - M/2 + M - 1`. -/
theorem spiral_computeDesiredGlobalIndices_window
    (maxVisibleEntries numDeactivatedEntries focusedIndex : Int)
    (angularSpacing latestPointerAngle : Rat)
    (hM : 1 ≤ maxVisibleEntries) (hD : 0 ≤ numDeactivatedEntries)
    (hF : focusedIndex
        = SpiralLayoutStrategy.findFocusedGlobalIndexByAngle angularSpacing latestPointerAngle) :
    (SpiralLayoutStrategy.computeDesiredGlobalIndices maxVisibleEntries numDeactivatedEntries
          angularSpacing latestPointerAngle).indices
        = Finset.Icc (focusedIndex - maxVisibleEntries.tdiv 2 - numDeactivatedEntries)
            (focusedIndex - maxVisibleEntries.tdiv 2 + maxVisibleEntries - 1
              + numDeactivatedEntries)
    ∧ (SpiralLayoutStrategy.computeDesiredGlobalIndices maxVisibleEntries numDeactivatedEntries
          angularSpacing latestPointerAngle).indices.card
        = (maxVisibleEntries + 2 * numDeactivatedEntries).toNat
    ∧ ∀ g : Int,
        RadialLayoutStrategy.shouldBeVisible
            (SpiralLayoutStrategy.computeDesiredGlobalIndices maxVisibleEntries
                numDeactivatedEntries angularSpacing latestPointerAngle).visibleStartIndex
            (SpiralLayoutStrategy.computeDesiredGlobalIndices maxVisibleEntries
                numDeactivatedEntries angularSpacing latestPointerAngle).visibleEndIndex g
          ↔ (focusedIndex - maxVisibleEntries.tdiv 2 ≤ g
             ∧ g ≤ focusedIndex - maxVisibleEntries.tdiv 2 + maxVisibleEntries - 1) := by
subst hF
refine ⟨rfl, ?_, ?_⟩
· show (Finset.Icc _ _).card = _
  rw [Int.card_Icc]
  congr 1
  ring
· intro g
  exact Iff.rfl

/-- Witness for C5 at `M = 8`, `D = 2`, spacing `45°`, pointer `100°`
(focused index `2`), probing visibility at `g = 3`. -/
theorem spiral_computeDesiredGlobalIndices_window_witness :
    (SpiralLayoutStrategy.computeDesiredGlobalIndices 8 2 45 100).indices
        = Finset.Icc (2 - Int.tdiv 8 2 - 2) (2 - Int.tdiv 8 2 + 8 - 1 + 2)
    ∧ (SpiralLayoutStrategy.computeDesiredGlobalIndices 8 2 45 100).indices.card
        = ((8:Int) + 2 * 2).toNat
    ∧ (RadialLayoutStrategy.shouldBeVisible
          (SpiralLayoutStrategy.computeDesiredGlobalIndices 8 2 45 100).visibleStartIndex
          (SpiralLayoutStrategy.computeDesiredGlobalIndices 8 2 45 100).visibleEndIndex 3
        ↔ (2 - Int.tdiv 8 2 ≤ (3:Int) ∧ (3:Int) ≤ 2 - Int.tdiv 8 2 + 8 - 1)) := by
have hF : (2:Int) = SpiralLayoutStrategy.findFocusedGlobalIndexByAngle 45 100 := by
  symm
  rw [SpiralLayoutStrategy.findFocusedGlobalIndexByAngle,
    if_neg (by norm_num [isNearlyZero, smallNumber])]
  norm_num [Int.floor_eq_iff]
have h := spiral_computeDesiredGlobalIndices_window 8 2 2 45 100 (by decide) (by decide) hF
exact ⟨h.1, h.2.1, h.2.2 3⟩

/-- Counterexample to C3 as stated: with `NumItems = 1`, gap `0`, angular
spacing `10⁻⁹ > 0`, data index `0` and pointer angle `100°`, the cycle step
`10⁻⁹` falls under the `IsNearlyZero` tolerance, the source early-outs with the
item base angle `0°`, and the result is `100°` away from the pointer — far
beyond `CycleStep/2` — so "spacing > 0" alone does not give the claimed bound. -/
theorem spiral_shortestAngle_claim_counterexample :
    (1:Int) ≤ 1 ∧ (0:Int) ≤ 0 ∧ (0:Rat) < 1/1000000000 ∧ (0:Int) ≤ 0 ∧ (0:Int) < 1
    ∧ ¬ |SpiralLayoutStrategy.computeShortestUnboundAngleForDataIndex 1 0 (1/1000000000) 100 0
          - 100| ≤ (((1:Int) + 0 : Int) : Rat) * (1/1000000000) / 2 := by
refine ⟨by decide, by decide, by norm_num, by decide, by decide, ?_⟩
have hres : SpiralLayoutStrategy.computeShortestUnboundAngleForDataIndex 1 0 (1/1000000000) 100 0
    = ((0:Int) : Rat) * (1/1000000000) := by
  simp only [SpiralLayoutStrategy.computeShortestUnboundAngleForDataIndex]
  rw [if_neg (by decide), if_pos (by norm_num [isNearlyZero, smallNumber, abs_le])]
rw [hres]
norm_num

/-- C3 (amended with the near-zero guard): when the cycle step additionally
exceeds the `SMALL_NUMBER` tolerance, `ComputeShortestUnboundAngleForDataIndex`
returns an angle within `±CycleStep/2` of the pointer, equal to one of the two
cycle-aligned floor/ceil candidates, and never the candidate farther from the
pointer. -/
theorem spiral_shortestAngle_within_half_cycle
    (numItems gapPaddingSegments dataIndex : Int)
    (angularSpacing latestPointerAngle itemBaseAngle cycleStep floorCandidate ceilCandidate : Rat)
    (hn : 1 ≤ numItems) (hgap : 0 ≤ gapPaddingSegments)
    (hsp : 0 < angularSpacing)
    (hd0 : 0 ≤ dataIndex) (hdn : dataIndex < numItems)
    (hbase : itemBaseAngle = (dataIndex : Rat) * angularSpacing)
    (hcs : cycleStep = ((numItems + gapPaddingSegments : Int) : Rat) * angularSpacing)
    (htol : ¬ isNearlyZero cycleStep)
    (hfc : floorCandidate
        = itemBaseAngle + (⌊(latestPointerAngle - itemBaseAngle) / cycleStep⌋ : Int) * cycleStep)
    (hcc : ceilCandidate
        = itemBaseAngle + (⌈(latestPointerAngle - itemBaseAngle) / cycleStep⌉ : Int) * cycleStep) :
    |SpiralLayoutStrategy.computeShortestUnboundAngleForDataIndex numItems gapPaddingSegments
        angularSpacing latestPointerAngle dataIndex - latestPointerAngle| ≤ cycleStep / 2
    ∧ (SpiralLayoutStrategy.computeShortestUnboundAngleForDataIndex numItems gapPaddingSegments
          angularSpacing latestPointerAngle dataIndex = floorCandidate
       ∨ SpiralLayoutStrategy.computeShortestUnboundAngleForDataIndex numItems gapPaddingSegments
          angularSpacing latestPointerAngle dataIndex = ceilCandidate)
    ∧ |SpiralLayoutStrategy.computeShortestUnboundAngleForDataIndex numItems gapPaddingSegments
        angularSpacing latestPointerAngle dataIndex - latestPointerAngle|
        ≤ |floorCandidate - latestPointerAngle|
    ∧ |SpiralLayoutStrategy.computeShortestUnboundAngleForDataIndex numItems gapPaddingSegments
        angularSpacing latestPointerAngle dataIndex - latestPointerAngle|
        ≤ |ceilCandidate - latestPointerAngle| := by
have hcspos : 0 < cycleStep := by
  rw [hcs]
  have hvc : (0:Rat) < ((numItems + gapPaddingSegments : Int) : Rat) := by
    exact_mod_cast (by omega : (0:Int) < numItems + gapPaddingSegments)
  exact mul_pos hvc hsp
have hne : ¬ numItems ≤ 0 := by omega
have hA : SpiralLayoutStrategy.computeShortestUnboundAngleForDataIndex numItems
      gapPaddingSegments angularSpacing latestPointerAngle dataIndex
    = if |floorCandidate - latestPointerAngle| ≤ |ceilCandidate - latestPointerAngle|
      then floorCandidate else ceilCandidate := by
  simp only [SpiralLayoutStrategy.computeShortestUnboundAngleForDataIndex, if_neg hne]
  rw [← hcs, ← hbase, if_neg htol, ← hfc, ← hcc]
set q := (latestPointerAngle - itemBaseAngle) / cycleStep with hq
have hkey : latestPointerAngle - itemBaseAngle = q * cycleStep := by
  rw [hq]
  exact (div_mul_cancel₀ (latestPointerAngle - itemBaseAngle) hcspos.ne').symm
have hfle : (⌊q⌋ : Rat) ≤ q := Int.floor_le q
have hceil : q ≤ (⌈q⌉ : Rat) := Int.le_ceil q
have hcf : (⌈q⌉ : Rat) ≤ (⌊q⌋ : Rat) + 1 := by
  exact_mod_cast Int.ceil_le_floor_add_one q
have habsf : |floorCandidate - latestPointerAngle| = (q - (⌊q⌋ : Rat)) * cycleStep := by
  have h1 : floorCandidate - latestPointerAngle = ((⌊q⌋ : Rat) - q) * cycleStep := by
    rw [hfc]
    linear_combination -hkey
  rw [h1, abs_mul, abs_of_pos hcspos, abs_of_nonpos (by linarith), neg_sub]
have habsc : |ceilCandidate - latestPointerAngle| = ((⌈q⌉ : Rat) - q) * cycleStep := by
  have h2 : ceilCandidate - latestPointerAngle = ((⌈q⌉ : Rat) - q) * cycleStep := by
    rw [hcc]
    linear_combination -hkey
  rw [h2, abs_mul, abs_of_pos hcspos, abs_of_nonneg (by linarith)]
by_cases hif : |floorCandidate - latestPointerAngle| ≤ |ceilCandidate - latestPointerAngle|
· rw [hA, if_pos hif]
  refine ⟨?_, Or.inl rfl, le_refl _, hif⟩
  rw [habsf]
  rw [habsf, habsc] at hif
  nlinarith [hif,
    mul_nonneg (show (0:Rat) ≤ 1 - (q - (⌊q⌋ : Rat)) - ((⌈q⌉ : Rat) - q) by linarith)
      hcspos.le]
· rw [hA, if_neg hif]
  push_neg at hif
  refine ⟨?_, Or.inr rfl, hif.le, le_refl _⟩
  rw [habsc]
  rw [habsf, habsc] at hif
  nlinarith [hif,
    mul_nonneg (show (0:Rat) ≤ 1 - (q - (⌊q⌋ : Rat)) - ((⌈q⌉ : Rat) - q) by linarith)
      hcspos.le]

/-- Witness for the amended C3 at `n = 8`, gap `0`, spacing `45°`, pointer
`1000°`, data index `2`: candidates `810°` and `1170°`, the returned angle is
the closer one within `±180°`. -/
theorem spiral_shortestAngle_within_half_cycle_witness :
    |SpiralLayoutStrategy.computeShortestUnboundAngleForDataIndex 8 0 45 1000 2 - 1000|
        ≤ 360 / 2
    ∧ (SpiralLayoutStrategy.computeShortestUnboundAngleForDataIndex 8 0 45 1000 2 = 810
       ∨ SpiralLayoutStrategy.computeShortestUnboundAngleForDataIndex 8 0 45 1000 2 = 1170)
    ∧ |SpiralLayoutStrategy.computeShortestUnboundAngleForDataIndex 8 0 45 1000 2 - 1000|
        ≤ |810 - (1000:Rat)|
    ∧ |SpiralLayoutStrategy.computeShortestUnboundAngleForDataIndex 8 0 45 1000 2 - 1000|
        ≤ |1170 - (1000:Rat)| :=
spiral_shortestAngle_within_half_cycle 8 0 2 45 1000 90 360 810 1170
  (by decide) (by decide) (by norm_num) (by decide) (by decide)
  (by norm_num)
  (by norm_num)
  (by norm_num [isNearlyZero, smallNumber])
  (by
    have h : (⌊((1000:Rat) - 90) / 360⌋ : Int) = 2 := by norm_num [Int.floor_eq_iff]
    rw [h]
    norm_num)
  (by
    have h : (⌈((1000:Rat) - 90) / 360⌉ : Int) = 3 := by norm_num [Int.ceil_eq_iff]
    rw [h]
    norm_num)

namespace BaseStrategyWidget

lemma acquire_allocated (s : WidgetState) (g : Int) :
    (acquireEntryWidget s g).allocated = insert g s.allocated := by
unfold acquireEntryWidget
by_cases h : g ∈ s.allocated
· rw [if_pos h, Finset.insert_eq_self.mpr h]
· rw [if_neg h]

lemma acquire_of_mem (s : WidgetState) (g : Int) (h : g ∈ s.allocated) :
    acquireEntryWidget s g = s := by
unfold acquireEntryWidget
rw [if_pos h]

lemma updateDesiredEntry_allocated (s : WidgetState) (g : Int) :
    (updateDesiredEntry s g).allocated = insert g s.allocated := by
unfold updateDesiredEntry
rw [acquire_allocated, acquire_allocated, acquire_allocated,
  Finset.insert_idem, Finset.insert_idem]

lemma updateDesiredEntry_of_mem (s : WidgetState) (g : Int) (h : g ∈ s.allocated) :
    updateDesiredEntry s g = s := by
simp only [updateDesiredEntry]
rw [acquire_of_mem s g h, acquire_of_mem s g h, acquire_of_mem s g h]

lemma foldl_updateDesiredEntry_allocated (l : List Int) (s : WidgetState) :
    (l.foldl updateDesiredEntry s).allocated = s.allocated ∪ l.toFinset := by
induction l generalizing s with
| nil => simp
| cons g tl ih =>
  rw [List.foldl_cons, ih, updateDesiredEntry_allocated]
  ext x
  simp only [Finset.mem_union, Finset.mem_insert, List.toFinset_cons]
  tauto

lemma foldl_updateDesiredEntry_of_subset (l : List Int) (s : WidgetState)
    (h : ∀ g ∈ l, g ∈ s.allocated) : l.foldl updateDesiredEntry s = s := by
induction l with
| nil => rfl
| cons g tl ih =>
  rw [List.foldl_cons, updateDesiredEntry_of_mem s g (h g (by simp))]
  exact ih fun x hx => h x (by simp [hx])

lemma release_allocated (s : WidgetState) (g : Int) :
    (releaseEntryWidget s g).allocated = s.allocated.erase g := by
unfold releaseEntryWidget
by_cases h : g ∈ s.allocated
· rw [if_pos h]
· rw [if_neg h, Finset.erase_eq_self.mpr h]

lemma foldl_release_allocated (desiredIndices : Finset Int) (l : List Int) (s : WidgetState) :
    (l.foldl (fun acc g => if g ∈ desiredIndices then acc else releaseEntryWidget acc g)
        s).allocated
      = s.allocated \ (l.toFinset \ desiredIndices) := by
induction l generalizing s with
| nil => simp
| cons g tl ih =>
  rw [List.foldl_cons]
  by_cases h : g ∈ desiredIndices
  · rw [if_pos h, ih]
    congr 1
    ext x
    simp only [List.toFinset_cons, Finset.mem_sdiff, Finset.mem_insert]
    by_cases hxg : x = g
    · subst hxg
      simp [h]
    · simp [hxg]
  · rw [if_neg h, ih, release_allocated]
    ext x
    simp only [List.toFinset_cons, Finset.mem_sdiff, Finset.mem_insert, Finset.mem_erase]
    by_cases hxg : x = g
    · subst hxg
      simp [h]
    · simp [hxg]

lemma releaseUndesired_allocated (s : WidgetState) (desiredIndices : Finset Int) :
    (releaseUndesiredWidgets s desiredIndices).allocated = s.allocated ∩ desiredIndices := by
unfold releaseUndesiredWidgets
rw [foldl_release_allocated, Finset.sort_toFinset]
exact Finset.sdiff_sdiff_self_left s.allocated desiredIndices

lemma releaseUndesired_of_subset (s : WidgetState) (desiredIndices : Finset Int)
    (h : s.allocated ⊆ desiredIndices) : releaseUndesiredWidgets s desiredIndices = s := by
unfold releaseUndesiredWidgets
have hl : ∀ g ∈ s.allocated.sort (· ≤ ·), g ∈ desiredIndices := fun g hg =>
  h ((Finset.mem_sort _).mp hg)
generalize s.allocated.sort (· ≤ ·) = l at hl
induction l with
| nil => rfl
| cons g tl ih =>
  rw [List.foldl_cons, if_pos (hl g (by simp))]
  exact ih fun x hx => hl x (by simp [hx])

end BaseStrategyWidget

/-- C4: running the per-frame reconciliation (`UpdateVisibleWidgets`) twice
with the same item count and the same strategy-computed desired indices leaves
the second run with nothing to do: the whole state is unchanged, so
`ReleaseUndesiredWidgets` returns no widget to the pool and every
`AcquireEntryWidget` call reuses the widget already mapped to its index
instead of pulling a new instance. -/
theorem updateVisibleWidgets_idempotent
    (itemCount : Int) (desired : List Int) (s0 : BaseStrategyWidget.WidgetState)
    (h : itemCount ≠ 0) :
    BaseStrategyWidget.updateVisibleWidgets itemCount desired
        (BaseStrategyWidget.updateVisibleWidgets itemCount desired s0)
      = BaseStrategyWidget.updateVisibleWidgets itemCount desired s0
    ∧ (BaseStrategyWidget.updateVisibleWidgets itemCount desired
        (BaseStrategyWidget.updateVisibleWidgets itemCount desired s0)).poolReleases
      = (BaseStrategyWidget.updateVisibleWidgets itemCount desired s0).poolReleases
    ∧ (BaseStrategyWidget.updateVisibleWidgets itemCount desired
        (BaseStrategyWidget.updateVisibleWidgets itemCount desired s0)).poolAcquisitions
      = (BaseStrategyWidget.updateVisibleWidgets itemCount desired s0).poolAcquisitions := by
have hmain : BaseStrategyWidget.updateVisibleWidgets itemCount desired
    (BaseStrategyWidget.updateVisibleWidgets itemCount desired s0)
    = BaseStrategyWidget.updateVisibleWidgets itemCount desired s0 := by
  set s1 := BaseStrategyWidget.updateVisibleWidgets itemCount desired s0 with hs1
  have halloc : s1.allocated = desired.toFinset := by
    rw [hs1]
    unfold BaseStrategyWidget.updateVisibleWidgets
    rw [if_neg h, BaseStrategyWidget.foldl_updateDesiredEntry_allocated,
      BaseStrategyWidget.releaseUndesired_allocated]
    ext x
    simp only [Finset.mem_union, Finset.mem_inter]
    tauto
  conv_lhs => rw [BaseStrategyWidget.updateVisibleWidgets]
  rw [if_neg h,
    BaseStrategyWidget.releaseUndesired_of_subset s1 desired.toFinset (by simp [halloc])]
  exact BaseStrategyWidget.foldl_updateDesiredEntry_of_subset desired s1 fun g hg => by
    rw [halloc]
    exact List.mem_toFinset.mpr hg
exact ⟨hmain, by rw [hmain], by rw [hmain]⟩

/-- Witness for C4: three items, desired indices `[0, 1, 2]`, starting from an
empty widget map. -/
theorem updateVisibleWidgets_idempotent_witness :
    BaseStrategyWidget.updateVisibleWidgets 3 [0, 1, 2]
        (BaseStrategyWidget.updateVisibleWidgets 3 [0, 1, 2] ⟨∅, 0, 0⟩)
      = BaseStrategyWidget.updateVisibleWidgets 3 [0, 1, 2] ⟨∅, 0, 0⟩
    ∧ (BaseStrategyWidget.updateVisibleWidgets 3 [0, 1, 2]
        (BaseStrategyWidget.updateVisibleWidgets 3 [0, 1, 2] ⟨∅, 0, 0⟩)).poolReleases
      = (BaseStrategyWidget.updateVisibleWidgets 3 [0, 1, 2] ⟨∅, 0, 0⟩).poolReleases
    ∧ (BaseStrategyWidget.updateVisibleWidgets 3 [0, 1, 2]
        (BaseStrategyWidget.updateVisibleWidgets 3 [0, 1, 2] ⟨∅, 0, 0⟩)).poolAcquisitions
      = (BaseStrategyWidget.updateVisibleWidgets 3 [0, 1, 2] ⟨∅, 0, 0⟩).poolAcquisitions :=
updateVisibleWidgets_idempotent 3 [0, 1, 2] ⟨∅, 0, 0⟩ (by decide)

/-- C10: calling `SetSelectedGlobalIndex(g, b)` with a global index whose data
index resolves to `INDEX_NONE` (a gap slot) is a no-op for either boolean: the
early return fires before the selected-data-index set, any entry's interaction
tag state, or the selection broadcasts are touched, so the whole widget state
is returned unchanged. -/
theorem setSelectedGlobalIndex_gap_noop
    (g2d : Int → Int) (st : BaseStrategyWidget.SelectionState)
    (inGlobalIndex : Int) (bShouldBeSelected : Bool)
    (h : g2d inGlobalIndex = INDEX_NONE) :
    BaseStrategyWidget.setSelectedGlobalIndex g2d st inGlobalIndex bShouldBeSelected = st := by
simp [BaseStrategyWidget.setSelectedGlobalIndex, h]

/-- Witness for C10: on the spiral with `n = 10`, gap `6`, global index `10`
resolves to a gap slot, and selecting it changes nothing. -/
theorem setSelectedGlobalIndex_gap_noop_witness :
    SpiralLayoutStrategy.globalIndexToDataIndex 10 6 10 = INDEX_NONE
    ∧ BaseStrategyWidget.setSelectedGlobalIndex
        (SpiralLayoutStrategy.globalIndexToDataIndex 10 6)
        ⟨∅, [0, 1, 2], fun _ => [], []⟩ 10 true
      = ⟨∅, [0, 1, 2], fun _ => [], []⟩ :=
⟨by decide,
 setSelectedGlobalIndex_gap_noop (SpiralLayoutStrategy.globalIndexToDataIndex 10 6)
   ⟨∅, [0, 1, 2], fun _ => [], []⟩ 10 true (by decide)⟩
